import Mathlib

/-
Verification development for the bcso-clockin-bot repository.

The repository contains two near-duplicate implementations of a shift
time-tracking core: src/index.js and src/unnamed/part_000.  The core data
is a single collection of session records; the operations are the active
session lookup, session creation, session close with break accounting,
windowed aggregation queries, week range arithmetic, and the button-event
state machine.  This file gives a shallow embedding of those operations
and proves the specification claims about them.

Modelling conventions:
- JS numbers used as millisecond timestamps are modelled as Int.
- Nullable fields are modelled as Option.
- JS object mutation of an element found by Array.prototype.find is
  modelled as an update of the first list element matching the same
  predicate (setFirst).
- JS truthiness of a nullable number (for example the breakStart check
  in closeSession) is modelled by truthyNum: null and 0 are falsy.
- The file persistence (loadData/saveData) is an identity round-trip on
  the collection and is not modelled; every operation takes and returns
  the session collection explicitly.
- For the legacy-record claim, RawSession and JsVal additionally model
  missing fields (undefined) and NaN arithmetic of the untyped source.
-/

namespace ClockinBot

/-- Update the first element of a list satisfying a predicate, leaving
everything else unchanged.  This models the JS pattern of mutating, in
place, the object returned by Array.prototype.find. -/
def setFirst {α : Type} (p : α → Bool) (f : α → α) : List α → List α
  | [] => []
  | x :: xs => if p x then f x :: xs else x :: setFirst p f xs

/-- JS truthiness of a nullable number: null is falsy and 0 is falsy. -/
def truthyNum : Option Int → Bool
  | none => false
  | some v => v != 0

/-- JS expression x || d for a nullable number x: null and 0 fall back
to the default d. -/
def jsOrNum (x : Option Int) (d : Int) : Int :=
  match x with
  | none => d
  | some v => if v == 0 then d else v

/-- A session record, as stored in the sessions array of the data file
(fields as created by addSession in both source files).  Fields here are
well-typed; the untyped legacy shape is modelled by RawSession below. -/
structure Session where
  id : Nat
  guildId : String
  userId : String
  departmentId : String
  clockIn : Int
  clockOut : Option Int
  duration : Option Int
  onBreak : Bool
  breakStart : Option Int
  totalBreak : Int
deriving DecidableEq

/-- The predicate used by getActiveSession in both source files: same
guild, user and department, and clockOut == null. -/
def isActiveFor (guildId userId departmentId : String) (s : Session) : Bool :=
  s.guildId == guildId && s.userId == userId &&
    s.departmentId == departmentId && s.clockOut == none

/-- Embedding of getActiveSession: data.sessions.find(...) over the
active-session predicate. -/
def getActiveSession (sessions : List Session) (guildId userId departmentId : String) :
    Option Session :=
  sessions.find? (isActiveFor guildId userId departmentId)

/-- Embedding of addSession: push a fresh open session with zero break
state onto the collection.  The generated string id is modelled by an
opaque-to-the-caller freshId argument. -/
def addSession (sessions : List Session) (guildId userId departmentId : String)
    (clockIn : Int) (freshId : Nat) : List Session :=
  sessions ++ [{ id := freshId, guildId := guildId, userId := userId,
                 departmentId := departmentId, clockIn := clockIn, clockOut := none,
                 duration := none, onBreak := false, breakStart := none, totalBreak := 0 }]

/-- The break total computed by closeSession before the close: if the
session is on break and breakStart is truthy (non-null and non-zero, per
JS truthiness), the in-progress break is ended at clockOut and folded in;
otherwise the stored total is kept. -/
def foldedBreak (s : Session) (clockOut : Int) : Int :=
  if s.onBreak && truthyNum s.breakStart then
    s.totalBreak + (clockOut - s.breakStart.getD 0)
  else
    s.totalBreak

/-- Embedding of closeSession (src/unnamed/part_000 lines 75-105, and the
equivalent src/index.js lines 81-97): find the session by id (null result
if unknown), fold an in-progress break, compute the floored worked
duration, and store the closed record.  Returns the updated collection
together with the duration/breakTotal result object. -/
def closeSession (sessions : List Session) (sessionId : Nat) (clockOut : Int) :
    Option (List Session × Int × Int) :=
  match sessions.find? (fun s => s.id == sessionId) with
  | none => none
  | some s =>
    let totalBreak := foldedBreak s clockOut
    let rawDuration := clockOut - s.clockIn
    let workedDuration := max (rawDuration - totalBreak) 0
    some (setFirst (fun x => x.id == sessionId)
            (fun _ => { s with clockOut := some clockOut,
                               duration := some workedDuration,
                               onBreak := false, breakStart := none,
                               totalBreak := totalBreak }) sessions,
          workedDuration, totalBreak)

/-- Embedding of getUserTotalDuration: all-time sum of duration over the
user's closed sessions (duration != null), ignoring department and window. -/
def getUserTotalDuration (sessions : List Session) (guildId userId : String) : Int :=
  sessions.foldl (fun sum s =>
    if s.guildId == guildId && s.userId == userId && s.duration != none then
      sum + s.duration.getD 0
    else sum) 0

/-- Embedding of getUserTotalInRange (src/unnamed/part_000 lines 155-171):
skip sessions of other guilds or users, open sessions, sessions with null
duration, and sessions whose clockOut falls outside [startMs, endMs). -/
def getUserTotalInRange (sessions : List Session) (guildId userId : String)
    (startMs endMs : Int) : Int :=
  sessions.foldl (fun total s =>
    if s.guildId != guildId then total
    else if s.userId != userId then total
    else if s.duration == none then total
    else if s.clockOut == none then total
    else
      let e := s.clockOut.getD 0
      if e < startMs || e >= endMs then total
      else total + s.duration.getD 0) 0

/-- Embedding of getDepartmentTotalInRange (src/unnamed/part_000 lines
136-152): combined department total over closed sessions whose clockOut
falls in [startMs, endMs). -/
def getDepartmentTotalInRange (sessions : List Session) (guildId departmentId : String)
    (startMs endMs : Int) : Int :=
  sessions.foldl (fun total s =>
    if s.guildId != guildId then total
    else if s.departmentId != departmentId then total
    else if s.duration == none then total
    else if s.clockOut == none then total
    else
      let e := s.clockOut.getD 0
      if e < startMs || e >= endMs then total
      else total + s.duration.getD 0) 0

/-- Embedding of totals.set(userId, (totals.get(userId) || 0) + duration)
on an insertion-ordered map: update the first entry with this key in
place, or append a new entry at the end. -/
def insertTotal (acc : List (String × Int)) (userId : String) (dur : Int) :
    List (String × Int) :=
  match acc with
  | [] => [(userId, dur)]
  | (k, v) :: rest =>
    if k == userId then (k, v + dur) :: rest
    else (k, v) :: insertTotal rest userId dur

/-- One loop iteration of getDepartmentTotalsInRange: the skip chain of
src/unnamed/part_000 lines 117-128, accumulating per-user totals. -/
def deptTotalsStep (guildId departmentId : String) (startMs endMs : Int)
    (totals : List (String × Int)) (s : Session) : List (String × Int) :=
  if s.guildId != guildId then totals
  else if s.departmentId != departmentId then totals
  else if s.duration == none then totals
  else if s.clockOut == none then totals
  else
    let e := s.clockOut.getD 0
    if e < startMs || e >= endMs then totals
    else insertTotal totals s.userId (s.duration.getD 0)

/-- Stable insertion of an entry into a list sorted descending by total,
placing the new entry before the first entry whose total is not larger. -/
def insertDesc (x : String × Int) : List (String × Int) → List (String × Int)
  | [] => [x]
  | y :: ys => if y.2 ≤ x.2 then x :: y :: ys else y :: insertDesc x ys

/-- Stable sort descending by total, modelling the ECMAScript stable
Array.prototype.sort with comparator (a, b) => b.total - a.total. -/
def sortDesc : List (String × Int) → List (String × Int)
  | [] => []
  | x :: xs => insertDesc x (sortDesc xs)

/-- Embedding of getDepartmentTotalsInRange (src/unnamed/part_000 lines
114-133): per-user totals over closed in-window department sessions,
sorted descending by total. -/
def getDepartmentTotalsInRange (sessions : List Session)
    (guildId departmentId : String) (startMs endMs : Int) : List (String × Int) :=
  sortDesc (sessions.foldl (deptTotalsStep guildId departmentId startMs endMs) [])

/-- Semantic observer for the insertion-ordered totals map, modelling
Map.prototype.get: the value at the first entry with the given key. -/
def lookupKey (userId : String) : List (String × Int) → Option Int
  | [] => none
  | (k, v) :: rest => if k == userId then some v else lookupKey userId rest

/-- Sum of the total fields of a totals list. -/
def valuesSum (l : List (String × Int)) : Int :=
  (l.map Prod.snd).sum

/-- Sum of the durations of a session list (durations default to 0,
matching the reads guarded by duration != null in the source). -/
def sumDurations (sessions : List Session) : Int :=
  (sessions.map (fun s => s.duration.getD 0)).sum

/-- Modelled from the spec: the aggregation-contract predicate, written
from the spec's words, for the user-keyed queries - a session counts
exactly when it has non-null duration and its clockOut lies in the
half-open window [startMs, endMs). -/
def specUserWindow (guildId userId : String) (startMs endMs : Int) (s : Session) : Bool :=
  s.guildId == guildId && s.userId == userId && s.duration != none &&
    (match s.clockOut with
     | some c => decide (startMs ≤ c) && decide (c < endMs)
     | none => false)

/-- Modelled from the spec: the aggregation-contract predicate, written
from the spec's words, for the department-keyed queries. -/
def specDeptWindow (guildId departmentId : String) (startMs endMs : Int) (s : Session) : Bool :=
  s.guildId == guildId && s.departmentId == departmentId && s.duration != none &&
    (match s.clockOut with
     | some c => decide (startMs ≤ c) && decide (c < endMs)
     | none => false)

/-- Filter for one user's counted sessions inside a department window. -/
def deptUserFilter (guildId departmentId : String) (startMs endMs : Int)
    (userId : String) (s : Session) : Bool :=
  specDeptWindow guildId departmentId startMs endMs s && s.userId == userId

/-- A half-open time window, as returned by the range helpers. -/
structure TimeRange where
  startMs : Int
  endMs : Int
deriving DecidableEq

/-- The fixed week length in milliseconds used by getWeekRangeForOffset:
7 * 24 * 60 * 60 * 1000. -/
def weekMs : Int := 7 * 24 * 60 * 60 * 1000

/-- Embedding of getWeekRangeForOffset (src/unnamed/part_000 lines
211-217, src/index.js lines 169-176).  getCurrentWeekRange reads the
wall clock, so the current week range is passed as a parameter; the
function itself is the pure fixed 7-day-millisecond shift. -/
def getWeekRangeForOffset (currentWeek : TimeRange) (offset : Int) : TimeRange :=
  { startMs := currentWeek.startMs - offset * weekMs,
    endMs := currentWeek.endMs - offset * weekMs }

/-- The three button actions handled by handleClockButton. -/
inductive ClockAction where
  | clockin
  | breakToggle
  | clockout
deriving DecidableEq

/-- The user-facing replies of handleClockButton (src/unnamed/part_000).
alreadyClockedIn is the message of line 480 and notClockedIn the message
of line 509; the remaining constructors are the accepted-action replies
and the data-consistency error reply of line 582. -/
inductive ClockReply where
  | alreadyClockedIn
  | clockedIn
  | notClockedIn
  | breakStarted
  | breakEnded (breakDuration : Int)
  | clockedOut (duration breakTotal : Int)
  | sessionError
deriving DecidableEq

/-- Embedding of the state transition of handleClockButton
(src/unnamed/part_000 lines 457-621, src/index.js lines 334-427): the
store mutation plus the reply, for one inbound (action, guildId, userId,
departmentId, timestamp) event.  The legacy-field defaulting of lines
516-517 is the identity on the well-typed model and is modelled on
RawSession separately; embed rendering and log delivery are external
side effects with no bearing on the store. -/
def handleClockButton (sessions : List Session) (action : ClockAction)
    (guildId userId departmentId : String) (now : Int) (freshId : Nat) :
    List Session × ClockReply :=
  match action with
  | .clockin =>
    match getActiveSession sessions guildId userId departmentId with
    | some _ => (sessions, .alreadyClockedIn)
    | none => (addSession sessions guildId userId departmentId now freshId, .clockedIn)
  | .breakToggle =>
    match getActiveSession sessions guildId userId departmentId with
    | none => (sessions, .notClockedIn)
    | some active =>
      if !active.onBreak then
        (setFirst (isActiveFor guildId userId departmentId)
           (fun s => { s with onBreak := true, breakStart := some now }) sessions,
         .breakStarted)
      else
        let breakStart := jsOrNum active.breakStart now
        let breakDuration := now - breakStart
        (setFirst (isActiveFor guildId userId departmentId)
           (fun s => { s with onBreak := false, breakStart := none,
                              totalBreak := s.totalBreak + breakDuration }) sessions,
         .breakEnded breakDuration)
  | .clockout =>
    match getActiveSession sessions guildId userId departmentId with
    | none => (sessions, .notClockedIn)
    | some active =>
      match closeSession sessions active.id now with
      | none => (sessions, .sessionError)
      | some (sessions2, dur, brk) => (sessions2, .clockedOut dur brk)

/-- Run a sequence of button events for one (guildId, userId,
departmentId) key, each event carrying its action, timestamp and the
fresh id used if the event creates a session. -/
def runEvents (guildId userId departmentId : String) :
    List Session → List (ClockAction × Int × Nat) → List Session
  | sessions, [] => sessions
  | sessions, (a, t, freshId) :: rest =>
    runEvents guildId userId departmentId
      (handleClockButton sessions a guildId userId departmentId t freshId).fst rest

/-- Number of open sessions for one key. -/
def countOpen (sessions : List Session) (guildId userId departmentId : String) : Nat :=
  sessions.countP (isActiveFor guildId userId departmentId)

/-- A JS value in a numeric field position of a loosely-typed session
record: null, undefined (a missing field), NaN, or a number. -/
inductive JsVal where
  | jnull
  | undef
  | nan
  | num (n : Int)
deriving DecidableEq

/-- JS ToNumber on a JsVal, with none standing for NaN: null converts to
0, undefined and NaN convert to NaN. -/
def JsVal.toNum : JsVal → Option Int
  | .jnull => some 0
  | .undef => none
  | .nan => none
  | .num n => some n

/-- JS typeof v === 'number': true for numbers and for NaN, false for
null and undefined. -/
def JsVal.isNumberType : JsVal → Bool
  | .num _ => true
  | .nan => true
  | .jnull => false
  | .undef => false

/-- JS v || 0: any falsy value (null, undefined, NaN, 0) falls back to 0. -/
def JsVal.orZero : JsVal → Int
  | .num n => n
  | _ => 0

/-- JS v + m for an integer m: NaN and undefined poison the sum to NaN,
null coerces to 0. -/
def JsVal.addInt (v : JsVal) (m : Int) : JsVal :=
  match v.toNum with
  | none => .nan
  | some n => .num (n + m)

/-- JS m - v for an integer m. -/
def JsVal.subFromInt (m : Int) (v : JsVal) : JsVal :=
  match v.toNum with
  | none => .nan
  | some n => .num (m - n)

/-- JS Math.max(v, 0): NaN propagates, otherwise the integer maximum. -/
def JsVal.max0 : JsVal → JsVal
  | v => match v.toNum with
    | none => .nan
    | some n => .num (max n 0)

/-- A loosely-typed session record as it may be loaded from an older data
file: onBreak none models a missing (undefined) or non-boolean field, and
the numeric break fields carry JsVal so that a missing totalBreak and NaN
arithmetic are representable. -/
structure RawSession where
  id : Nat
  guildId : String
  userId : String
  departmentId : String
  clockIn : Int
  clockOut : Option Int
  duration : JsVal
  onBreak : Option Bool
  breakStart : Option Int
  totalBreak : JsVal
deriving DecidableEq

/-- Embedding of closeSession from src/unnamed/part_000 (lines 75-105) on
loosely-typed records: lines 80-81 first default a non-boolean onBreak to
false and a non-number totalBreak to 0, line 83 reads the total through
|| 0, then the break fold, floor and store proceed as in closeSession. -/
def closeSessionRawPart000 (sessions : List RawSession) (sessionId : Nat)
    (clockOut : Int) : Option (List RawSession × Int × Int) :=
  match sessions.find? (fun s => s.id == sessionId) with
  | none => none
  | some s0 =>
    let s := { s0 with onBreak := some (s0.onBreak.getD false),
                       totalBreak := if s0.totalBreak.isNumberType then s0.totalBreak
                                     else JsVal.num 0 }
    let tb0 := s.totalBreak.orZero
    let totalBreak := if s.onBreak.getD false && truthyNum s.breakStart then
                        tb0 + (clockOut - s.breakStart.getD 0)
                      else tb0
    let rawDuration := clockOut - s.clockIn
    let workedDuration := max (rawDuration - totalBreak) 0
    some (setFirst (fun x => x.id == sessionId)
            (fun _ => { s with clockOut := some clockOut,
                               duration := JsVal.num workedDuration,
                               onBreak := some false, breakStart := none,
                               totalBreak := JsVal.num totalBreak }) sessions,
          workedDuration, totalBreak)

/-- Embedding of closeSession from src/index.js (lines 81-97) on
loosely-typed records: no defaulting is applied, so a missing totalBreak
flows into the duration arithmetic as undefined (hence NaN) and is left
unassigned unless a break is folded. -/
def closeSessionRawIndex (sessions : List RawSession) (sessionId : Nat)
    (clockOut : Int) : Option (List RawSession × JsVal × JsVal) :=
  match sessions.find? (fun s => s.id == sessionId) with
  | none => none
  | some s =>
    let totalBreak := if s.onBreak.getD false && truthyNum s.breakStart then
                        s.totalBreak.addInt (clockOut - s.breakStart.getD 0)
                      else s.totalBreak
    let duration := (JsVal.subFromInt (clockOut - s.clockIn) totalBreak).max0
    some (setFirst (fun x => x.id == sessionId)
            (fun _ => { s with clockOut := some clockOut,
                               duration := duration,
                               onBreak := some false, breakStart := none,
                               totalBreak := totalBreak }) sessions,
          duration, totalBreak)

/-- A legacy session record from an older data file: open, and with no
break fields recorded (onBreak/breakStart/totalBreak are all undefined). -/
def legacySession : RawSession :=
  { id := 9, guildId := "g", userId := "u", departmentId := "d", clockIn := 0,
    clockOut := none, duration := JsVal.jnull, onBreak := none,
    breakStart := none, totalBreak := JsVal.undef }

/-- The record stored for legacySession by the part_000 closeSession:
the legacy break fields are defaulted, so the session closes as one with
no break taken. -/
def legacyClosedPart000 : RawSession :=
  { legacySession with clockOut := some 10000, duration := JsVal.num 10000,
                       onBreak := some false, breakStart := none,
                       totalBreak := JsVal.num 0 }

/-- The record stored for legacySession by the src/index.js closeSession:
no defaulting, so the missing totalBreak poisons duration to NaN and is
itself left undefined. -/
def legacyClosedIndex : RawSession :=
  { legacySession with clockOut := some 10000, duration := JsVal.nan,
                       onBreak := some false, breakStart := none,
                       totalBreak := JsVal.undef }

/-- Scenario data for the leaderboard claim: user A with 5000 ms and user
B with 10000 ms of closed in-window session time. -/
def sessionA : Session :=
  { id := 11, guildId := "g", userId := "A", departmentId := "d", clockIn := 0,
    clockOut := some 6000, duration := some 5000, onBreak := false,
    breakStart := none, totalBreak := 1000 }

/-- Second leaderboard scenario session, for user B. -/
def sessionB : Session :=
  { id := 12, guildId := "g", userId := "B", departmentId := "d", clockIn := 0,
    clockOut := some 20000, duration := some 10000, onBreak := false,
    breakStart := none, totalBreak := 0 }

/-- The closed session produced by the spec scenario: clock-in at 0,
break at 1000, break-end at 4000, clock-out at 10000. -/
def scenarioClosedSession : Session :=
  { id := 1, guildId := "g", userId := "u", departmentId := "d", clockIn := 0,
    clockOut := some 10000, duration := some 7000, onBreak := false,
    breakStart := none, totalBreak := 3000 }

/-- A session on break whose breakStart is the timestamp 0, which is
falsy in JS although it is not null. -/
def breakAtZeroSession : Session :=
  { id := 2, guildId := "g", userId := "u", departmentId := "d", clockIn := 0,
    clockOut := none, duration := none, onBreak := true,
    breakStart := some 0, totalBreak := 0 }

/-- A plain open session with no break state, used as a concrete input. -/
def openSession4 : Session :=
  { id := 4, guildId := "g", userId := "u", departmentId := "d", clockIn := 0,
    clockOut := none, duration := none, onBreak := false,
    breakStart := none, totalBreak := 0 }

/-- openSession4 closed at timestamp 1000. -/
def closed4a : Session :=
  { openSession4 with clockOut := some 1000, duration := some 1000 }

/-- openSession4 closed at timestamp 2000. -/
def closed4b : Session :=
  { openSession4 with clockOut := some 2000, duration := some 2000 }

/-- An open session whose accumulated totalBreak (5000 ms) exceeds the
time that will have elapsed at close. -/
def inflatedBreakSession : Session :=
  { id := 5, guildId := "g", userId := "u", departmentId := "d", clockIn := 0,
    clockOut := none, duration := none, onBreak := false,
    breakStart := none, totalBreak := 5000 }

/-- A closed session with the given keys, close time and duration, used
to state the window-boundary facts. -/
def boundarySession (g u dp : String) (i : Nat) (ci co w tb : Int) : Session :=
  { id := i, guildId := g, userId := u, departmentId := dp, clockIn := ci,
    clockOut := some co, duration := some w, onBreak := false,
    breakStart := none, totalBreak := tb }

/-- A session with an in-progress break that started at 1500 with 200 ms
of earlier break time accumulated. -/
def onBreakSession : Session :=
  { id := 6, guildId := "g", userId := "u", departmentId := "d", clockIn := 0,
    clockOut := none, duration := none, onBreak := true,
    breakStart := some 1500, totalBreak := 200 }

/-- The record that closeSession stores for a session s closed at
clockOutTs: the folded break total, the floored duration, clockOut set,
and the break-in-progress state cleared. -/
def closedRecord (s : Session) (clockOutTs : Int) : Session :=
  { s with clockOut := some clockOutTs,
           duration := some (max (clockOutTs - s.clockIn - foldedBreak s clockOutTs) 0),
           onBreak := false, breakStart := none,
           totalBreak := foldedBreak s clockOutTs }

/-- breakAtZeroSession as closeSession stores it at t = 10000: the
in-progress break is not folded because breakStart 0 is falsy. -/
def closedBreakAtZero : Session :=
  { breakAtZeroSession with clockOut := some 10000, duration := some 10000,
                            onBreak := false, breakStart := none, totalBreak := 0 }

/-- inflatedBreakSession as stored after close at t = 1000: duration is
floored to 0 but totalBreak keeps the value 5000, above the elapsed 1000. -/
def inflatedClosed : Session :=
  { inflatedBreakSession with clockOut := some 1000, duration := some 0 }

/-- setFirst preserves the length of the list. -/
theorem length_setFirst {α : Type} (p : α → Bool) (f : α → α) :
    ∀ l : List α, (setFirst p f l).length = l.length := by
  intro l
  induction l with
  | nil => rfl
  | cons x xs ih =>
    by_cases h : p x = true
    · simp [setFirst, h]
    · simp only [Bool.not_eq_true] at h
      simp [setFirst, h, ih]

/-- If the update can never satisfy a predicate q, then setFirst does not
increase the q-count. -/
theorem countP_setFirst_le {α : Type} (p : α → Bool) (f : α → α) (q : α → Bool)
    (hq : ∀ x, q (f x) = false) :
    ∀ l : List α, (setFirst p f l).countP q ≤ l.countP q := by
  intro l
  induction l with
  | nil => simp [setFirst]
  | cons x xs ih =>
    by_cases h : p x = true
    · simp only [setFirst, h, if_pos]
      simp [List.countP_cons, hq]
    · simp only [Bool.not_eq_true] at h
      simp only [setFirst, h, Bool.false_eq_true, if_neg, not_false_iff]
      simp only [List.countP_cons]
      omega

/-- If the update preserves a predicate q, then setFirst preserves the
q-count. -/
theorem countP_setFirst_eq {α : Type} (p : α → Bool) (f : α → α) (q : α → Bool)
    (hq : ∀ x, q (f x) = q x) :
    ∀ l : List α, (setFirst p f l).countP q = l.countP q := by
  intro l
  induction l with
  | nil => rfl
  | cons x xs ih =>
    by_cases h : p x = true
    · simp [setFirst, h, List.countP_cons, hq]
    · simp only [Bool.not_eq_true] at h
      simp [setFirst, h, List.countP_cons, ih]

/-- A list on which find? fails has no element satisfying the predicate. -/
theorem countP_eq_zero_of_find?_eq_none {α : Type} {p : α → Bool} :
    ∀ {l : List α}, l.find? p = none → l.countP p = 0 := by
  intro l
  induction l with
  | nil => intro _; rfl
  | cons x xs ih =>
    intro h
    rcases hx : p x with hfalse | htrue
    · rw [List.find?_cons_of_neg _ (by simp [hx])] at h
      simp [List.countP_cons, hx, ih h]
    · rw [List.find?_cons_of_pos _ hx] at h
      exact absurd h (by simp)

/-- A list with no element satisfying the predicate has no find? result. -/
theorem find?_eq_none_of_countP_eq_zero {α : Type} {p : α → Bool} :
    ∀ {l : List α}, l.countP p = 0 → l.find? p = none := by
  intro l
  induction l with
  | nil => intro _; rfl
  | cons x xs ih =>
    intro h
    simp only [List.countP_cons] at h
    rcases hx : p x with hfalse | htrue
    · rw [List.find?_cons_of_neg _ (by simp [hx])]
      exact ih (by omega)
    · simp [hx] at h

/-- A successful find? splits the list into a prefix with no match, the
found element, and a suffix. -/
theorem find?_decomp {α : Type} {p : α → Bool} :
    ∀ {l : List α} {a : α}, l.find? p = some a →
      ∃ l1 l2, l = l1 ++ a :: l2 ∧ (∀ x ∈ l1, p x = false) ∧ p a = true := by
  intro l
  induction l with
  | nil => intro a h; exact absurd h (by simp)
  | cons x xs ih =>
    intro a h
    rcases hx : p x with hfalse | htrue
    · rw [List.find?_cons_of_neg _ (by simp [hx])] at h
      obtain ⟨l1, l2, hsplit, hfree, hpa⟩ := ih h
      exact ⟨x :: l1, l2, by simp [hsplit], by
        intro y hy
        rcases List.mem_cons.mp hy with rfl | hy2
        · exact hx
        · exact hfree y hy2, hpa⟩
    · rw [List.find?_cons_of_pos _ hx] at h
      cases h
      exact ⟨[], xs, rfl, by simp, hx⟩

/-- setFirst on a decomposed list updates exactly the distinguished
element. -/
theorem setFirst_append {α : Type} (p : α → Bool) (f : α → α) :
    ∀ (l1 : List α) (a : α) (l2 : List α), (∀ x ∈ l1, p x = false) → p a = true →
      setFirst p f (l1 ++ a :: l2) = l1 ++ f a :: l2 := by
  intro l1
  induction l1 with
  | nil => intro a l2 _ hpa; simp [setFirst, hpa]
  | cons x xs ih =>
    intro a l2 hfree hpa
    have hx : p x = false := hfree x (by simp)
    simp only [List.cons_append, setFirst, hx, Bool.false_eq_true, if_neg, not_false_iff]
    exact congrArg (fun t => x :: t) (ih a l2 (fun y hy => hfree y (by simp [hy])) hpa)

/-- find? on a decomposed list returns the distinguished element. -/
theorem find?_append_first {α : Type} (p : α → Bool) :
    ∀ (l1 : List α) (a : α) (l2 : List α), (∀ x ∈ l1, p x = false) → p a = true →
      (l1 ++ a :: l2).find? p = some a := by
  intro l1
  induction l1 with
  | nil => intro a l2 _ hpa; simp [List.find?_cons_of_pos _ hpa]
  | cons x xs ih =>
    intro a l2 hfree hpa
    have hx : p x = false := hfree x (by simp)
    simp only [List.cons_append]
    rw [List.find?_cons_of_neg _ (by simp [hx])]
    exact ih a l2 (fun y hy => hfree y (by simp [hy])) hpa

/-- The closed record stored by closeSession is never an active session. -/
theorem isActiveFor_closed_false (g u d : String) (s0 : Session) (t tb dur : Int) :
    isActiveFor g u d { s0 with clockOut := some t, duration := some dur,
                                onBreak := false, breakStart := none,
                                totalBreak := tb } = false := by
  simp [isActiveFor]

/-- Inversion of a successful closeSession call: the collection was
updated by setFirst on the id predicate with the closed record. -/
theorem closeSession_inv {sessions : List Session} {sessionId : Nat} {t : Int}
    {l2 : List Session} {dur brk : Int}
    (h : closeSession sessions sessionId t = some (l2, dur, brk)) :
    ∃ s, sessions.find? (fun x => x.id == sessionId) = some s ∧
      brk = foldedBreak s t ∧ dur = max (t - s.clockIn - brk) 0 ∧
      l2 = setFirst (fun x => x.id == sessionId)
            (fun _ => { s with clockOut := some t, duration := some dur,
                               onBreak := false, breakStart := none,
                               totalBreak := brk }) sessions := by
  unfold closeSession at h
  cases hF : sessions.find? (fun x => x.id == sessionId) with
  | none => rw [hF] at h; exact absurd h (by simp)
  | some s =>
    rw [hF] at h
    simp only [Option.some.injEq, Prod.mk.injEq] at h
    obtain ⟨hl, hd, hb⟩ := h
    subst hb
    subst hd
    exact ⟨s, rfl, rfl, rfl, hl.symm⟩

/-- A successful closeSession preserves the size of the collection. -/
theorem closeSession_length {sessions : List Session} {sessionId : Nat} {t : Int}
    {l2 : List Session} {dur brk : Int}
    (h : closeSession sessions sessionId t = some (l2, dur, brk)) :
    l2.length = sessions.length := by
  obtain ⟨s, _, _, _, hl⟩ := closeSession_inv h
  rw [hl, length_setFirst]

/-- One button event preserves the at-most-one-open-session invariant for
its key: clock-in adds an open session only when none exists, break
events do not touch clockOut, and clock-out only closes. -/
theorem countOpen_step (sessions : List Session) (a : ClockAction)
    (g u d : String) (now : Int) (fid : Nat)
    (h : countOpen sessions g u d ≤ 1) :
    countOpen (handleClockButton sessions a g u d now fid).fst g u d ≤ 1 := by
  cases a with
  | clockin =>
    cases hA : getActiveSession sessions g u d with
    | some s =>
      simpa [handleClockButton, hA] using h
    | none =>
      have h0 : sessions.countP (isActiveFor g u d) = 0 :=
        countP_eq_zero_of_find?_eq_none hA
      simp [handleClockButton, hA, addSession, countOpen, List.countP_append,
            List.countP_cons, isActiveFor, h0]
  | breakToggle =>
    cases hA : getActiveSession sessions g u d with
    | none => simpa [handleClockButton, hA] using h
    | some s =>
      by_cases hb : s.onBreak = true
      · have hpres : ∀ x, isActiveFor g u d
            ({ x with onBreak := false, breakStart := none,
                      totalBreak := x.totalBreak + (now - jsOrNum s.breakStart now) } :
              Session) = isActiveFor g u d x := by
          intro x; cases x; rfl
        simp only [handleClockButton, hA, hb, Bool.not_true, Bool.false_eq_true,
                  if_neg, not_false_iff]
        calc countOpen (setFirst (isActiveFor g u d) _ sessions) g u d
            = sessions.countP (isActiveFor g u d) :=
              countP_setFirst_eq _ _ _ hpres sessions
          _ ≤ 1 := h
      · simp only [Bool.not_eq_true] at hb
        have hpres : ∀ x, isActiveFor g u d
            ({ x with onBreak := true, breakStart := some now } : Session)
              = isActiveFor g u d x := by
          intro x; cases x; rfl
        simp only [handleClockButton, hA, hb, Bool.not_false, if_pos]
        calc countOpen (setFirst (isActiveFor g u d) _ sessions) g u d
            = sessions.countP (isActiveFor g u d) :=
              countP_setFirst_eq _ _ _ hpres sessions
          _ ≤ 1 := h
  | clockout =>
    cases hA : getActiveSession sessions g u d with
    | none => simpa [handleClockButton, hA] using h
    | some s =>
      cases hC : closeSession sessions s.id now with
      | none => simpa [handleClockButton, hA, hC] using h
      | some res =>
        obtain ⟨l2, dur, brk⟩ := res
        obtain ⟨s0, hF, hbrk, hdur, hl⟩ := closeSession_inv hC
        have hle : l2.countP (isActiveFor g u d) ≤ sessions.countP (isActiveFor g u d) := by
          rw [hl]
          exact countP_setFirst_le _ _ _
            (fun x => isActiveFor_closed_false g u d s0 now brk dur) sessions
        simp only [handleClockButton, hA, hC]
        calc l2.countP (isActiveFor g u d) ≤ sessions.countP (isActiveFor g u d) := hle
          _ ≤ 1 := h

/-- The at-most-one-open invariant is preserved by any event sequence. -/
theorem countOpen_runEvents (g u d : String) :
    ∀ (events : List (ClockAction × Int × Nat)) (sessions : List Session),
      countOpen sessions g u d ≤ 1 →
      countOpen (runEvents g u d sessions events) g u d ≤ 1 := by
  intro events
  induction events with
  | nil => intro sessions h; exact h
  | cons e rest ih =>
    intro sessions h
    obtain ⟨a, t, fid⟩ := e
    exact ih _ (countOpen_step sessions a g u d t fid h)

/-- A break event never changes the number of stored sessions. -/
theorem handleClockButton_break_length (sessions : List Session) (g u d : String)
    (now : Int) (fid : Nat) :
    ((handleClockButton sessions .breakToggle g u d now fid).fst).length = sessions.length := by
  cases hA : getActiveSession sessions g u d with
  | none => simp [handleClockButton, hA]
  | some s =>
    by_cases hb : s.onBreak = true
    · simp [handleClockButton, hA, hb, length_setFirst]
    · simp only [Bool.not_eq_true] at hb
      simp [handleClockButton, hA, hb, length_setFirst]

/-- A clock-out event never changes the number of stored sessions. -/
theorem handleClockButton_clockout_length (sessions : List Session) (g u d : String)
    (now : Int) (fid : Nat) :
    ((handleClockButton sessions .clockout g u d now fid).fst).length = sessions.length := by
  cases hA : getActiveSession sessions g u d with
  | none => simp [handleClockButton, hA]
  | some s =>
    cases hC : closeSession sessions s.id now with
    | none => simp [handleClockButton, hA, hC]
    | some res =>
      obtain ⟨l2, dur, brk⟩ := res
      simp [handleClockButton, hA, hC, closeSession_length hC]

/-- C1: for every sequence of clock-in/break/clock-out events handled
for one (guildId, userId, departmentId) key, starting from any state
with at most one open session for that key, at most one session for
that key has clockOut == null at any time; clock-in appends a session
only when getActiveSession finds none and is a rejected no-op
otherwise, and break and clock-out events never create a session. -/
theorem atMostOneActiveSession :
    (∀ (g u d : String) (events : List (ClockAction × Int × Nat)) (sessions : List Session),
      countOpen sessions g u d ≤ 1 →
      countOpen (runEvents g u d sessions events) g u d ≤ 1)
    ∧ (∀ (sessions : List Session) (g u d : String) (now : Int) (fid : Nat),
      (getActiveSession sessions g u d = none →
        ((handleClockButton sessions .clockin g u d now fid).fst).length = sessions.length + 1)
      ∧ (getActiveSession sessions g u d ≠ none →
        (handleClockButton sessions .clockin g u d now fid).fst = sessions)
      ∧ ((handleClockButton sessions .breakToggle g u d now fid).fst).length = sessions.length
      ∧ ((handleClockButton sessions .clockout g u d now fid).fst).length = sessions.length) := by
  constructor
  · intro g u d events sessions h
    exact countOpen_runEvents g u d events sessions h
  · intro sessions g u d now fid
    refine ⟨?_, ?_, handleClockButton_break_length sessions g u d now fid,
            handleClockButton_clockout_length sessions g u d now fid⟩
    · intro h
      simp [handleClockButton, h, addSession]
    · intro h
      cases hA : getActiveSession sessions g u d with
      | none => exact absurd hA h
      | some s => simp [handleClockButton, hA]

/-- Witness for the active-session invariant at a concrete event
sequence containing a double clock-in and a double clock-out. -/
theorem atMostOneActiveSession_witness :
    countOpen (runEvents "g" "u" "d" []
      [(ClockAction.clockin, 0, 1), (ClockAction.clockin, 5, 2),
       (ClockAction.breakToggle, 10, 3), (ClockAction.clockout, 20, 4),
       (ClockAction.clockout, 30, 5), (ClockAction.clockin, 40, 6)]) "g" "u" "d" ≤ 1
    ∧ ((handleClockButton [] ClockAction.clockin "g" "u" "d" 0 1).fst).length =
        ([] : List Session).length + 1 :=
  ⟨atMostOneActiveSession.1 "g" "u" "d" _ [] (by decide),
   (atMostOneActiveSession.2 [] "g" "u" "d" 0 1).1 (by decide)⟩

/-- C6: a clock-in event when an active session already exists for the
key, and a break or clock-out event when no active session exists, are
rejected with the corresponding user-facing reply and leave the stored
session collection completely unchanged. -/
theorem rejectedEventsLeaveStateUnchanged :
    ∀ (sessions : List Session) (g u d : String) (now : Int) (fid : Nat),
      (getActiveSession sessions g u d ≠ none →
        handleClockButton sessions ClockAction.clockin g u d now fid =
          (sessions, ClockReply.alreadyClockedIn))
      ∧ (getActiveSession sessions g u d = none →
        handleClockButton sessions ClockAction.breakToggle g u d now fid =
          (sessions, ClockReply.notClockedIn)
        ∧ handleClockButton sessions ClockAction.clockout g u d now fid =
          (sessions, ClockReply.notClockedIn)) := by
  intro sessions g u d now fid
  constructor
  · intro h
    cases hA : getActiveSession sessions g u d with
    | none => exact absurd hA h
    | some s => simp [handleClockButton, hA]
  · intro h
    exact ⟨by simp [handleClockButton, h], by simp [handleClockButton, h]⟩

/-- Witness for the rejection claim: a double clock-in against a state
with one open session, and a break against the empty store. -/
theorem rejectedEventsLeaveStateUnchanged_witness :
    handleClockButton [openSession4] ClockAction.clockin "g" "u" "d" 50 7 =
      ([openSession4], ClockReply.alreadyClockedIn)
    ∧ handleClockButton [] ClockAction.breakToggle "g" "u" "d" 50 7 =
      ([], ClockReply.notClockedIn) :=
  ⟨(rejectedEventsLeaveStateUnchanged [openSession4] "g" "u" "d" 50 7).1 (by decide),
   ((rejectedEventsLeaveStateUnchanged [] "g" "u" "d" 50 7).2 (by decide)).1⟩

/-- C8: getWeekRangeForOffset equals the current week range with both
bounds shifted backward by exactly offset * 604800000 ms, for every
possible current week range (hence independent of the current day of
week); offset 0 returns the current range unchanged and offset 1 is
shifted back exactly 604800000 ms. -/
theorem weekRangeOffsetShift :
    ∀ (currentWeek : TimeRange) (offset : Nat),
      getWeekRangeForOffset currentWeek (offset : Int) =
        { startMs := currentWeek.startMs - (offset : Int) * 604800000,
          endMs := currentWeek.endMs - (offset : Int) * 604800000 }
      ∧ getWeekRangeForOffset currentWeek 0 = currentWeek
      ∧ getWeekRangeForOffset currentWeek 1 =
        { startMs := currentWeek.startMs - 604800000,
          endMs := currentWeek.endMs - 604800000 } := by
  intro currentWeek offset
  obtain ⟨cs, ce⟩ := currentWeek
  refine ⟨?_, ?_, ?_⟩ <;>
    simp [getWeekRangeForOffset, weekMs, TimeRange.mk.injEq]

/-- C9: evaluation of both closeSession implementations at a legacy
record with no break fields, closed at t = 10000 after clock-in at 0.
The part_000 implementation defaults onBreak to false and totalBreak to
0 and stores duration 10000 and totalBreak 0 (the record behaves as a
session with no break taken), while the src/index.js implementation
applies no defaulting: the missing totalBreak poisons the duration
arithmetic to NaN and totalBreak is left undefined. -/
theorem legacyRecordDefaulting :
    closeSessionRawPart000 [legacySession] 9 10000 =
      some ([legacyClosedPart000], 10000, 0)
    ∧ closeSessionRawIndex [legacySession] 9 10000 =
      some ([legacyClosedIndex], JsVal.nan, JsVal.undef)
    ∧ legacyClosedIndex.duration = JsVal.nan
    ∧ JsVal.nan ≠ JsVal.num 10000 := by
  refine ⟨by decide, by decide, by decide, by decide⟩

/-- C2 counterexample: a session on break whose breakStart is the
non-null timestamp 0 is closed at t = 10000 without folding the
in-progress break, because the source tests breakStart for JS truthiness
rather than for null: the stored break total is 0, not
totalBreak + (10000 - breakStart) = 10000, and the duration is 10000,
not 0. -/
theorem closeSessionBreakAtZeroCex :
    closeSession [breakAtZeroSession] 2 10000 = some ([closedBreakAtZero], 10000, 0)
    ∧ breakAtZeroSession.onBreak = true
    ∧ breakAtZeroSession.breakStart ≠ none
    ∧ closedBreakAtZero.totalBreak ≠
        breakAtZeroSession.totalBreak + (10000 - breakAtZeroSession.breakStart.getD 0) := by
  refine ⟨by decide, by decide, by decide, by decide⟩

/-- C2 (amended): for every session found by id, close(sessionId,
clockOutTs) folds an in-progress break into totalBreak as
clockOutTs - breakStart exactly when onBreak is true and breakStart is
truthy, that is non-null AND non-zero (for a falsy breakStart the stored
total is kept unchanged), then sets
duration = max(clockOutTs - clockIn - totalBreak, 0) and stores the
session with that clockOut, onBreak = false and breakStart = null; for
clock-in at t=0, break at t=1000, break-end at t=4000, clock-out at
t=10000 the closed session has duration 7000 and totalBreak 3000. -/
theorem closeSessionFoldsBreak :
    (∀ (sessions : List Session) (sessionId : Nat) (clockOutTs : Int) (s : Session),
      sessions.find? (fun x => x.id == sessionId) = some s →
      (s.onBreak = true → s.breakStart ≠ none → s.breakStart ≠ some 0 →
        foldedBreak s clockOutTs = s.totalBreak + (clockOutTs - s.breakStart.getD 0))
      ∧ (s.onBreak = false ∨ s.breakStart = none ∨ s.breakStart = some 0 →
        foldedBreak s clockOutTs = s.totalBreak)
      ∧ closeSession sessions sessionId clockOutTs =
        some (setFirst (fun x => x.id == sessionId)
                (fun _ => closedRecord s clockOutTs) sessions,
              max (clockOutTs - s.clockIn - foldedBreak s clockOutTs) 0,
              foldedBreak s clockOutTs))
    ∧ runEvents "g" "u" "d" []
        [(ClockAction.clockin, 0, 1), (ClockAction.breakToggle, 1000, 2),
         (ClockAction.breakToggle, 4000, 3), (ClockAction.clockout, 10000, 4)]
      = [scenarioClosedSession] := by
  constructor
  · intro sessions sessionId clockOutTs s hF
    refine ⟨?_, ?_, ?_⟩
    · intro hob hne h0
      cases hbs : s.breakStart with
      | none => exact absurd hbs hne
      | some v =>
        have hv : v ≠ 0 := by
          intro hv0
          exact h0 (by rw [hbs, hv0])
        simp [foldedBreak, truthyNum, hob, hbs, hv]
    · intro h
      rcases h with hob | hbs | hbs
      · simp [foldedBreak, hob]
      · simp [foldedBreak, truthyNum, hbs]
      · simp [foldedBreak, truthyNum, hbs]
    · simp [closeSession, hF, closedRecord]
  · decide

/-- Witness for the amended close claim: a session with an in-progress
break started at 1500 and 200 ms already accumulated, closed at 5000. -/
theorem closeSessionFoldsBreak_witness :
    foldedBreak onBreakSession 5000 =
      onBreakSession.totalBreak + (5000 - onBreakSession.breakStart.getD 0)
    ∧ closeSession [onBreakSession] 6 5000 =
      some (setFirst (fun x => x.id == 6)
              (fun _ => closedRecord onBreakSession 5000) [onBreakSession],
            max (5000 - onBreakSession.clockIn - foldedBreak onBreakSession 5000) 0,
            foldedBreak onBreakSession 5000) :=
  ⟨(closeSessionFoldsBreak.1 [onBreakSession] 6 5000 onBreakSession (by decide)).1
      (by decide) (by decide) (by decide),
   (closeSessionFoldsBreak.1 [onBreakSession] 6 5000 onBreakSession (by decide)).2.2⟩

/-- C4 counterexample: closeSession performs no openness check, so a
second direct call on the same session id with a later timestamp is not
rejected and does not leave the stored session unchanged: it overwrites
clockOut and recomputes duration. -/
theorem closeSecondCallMutatesCex :
    closeSession [openSession4] 4 1000 = some ([closed4a], 1000, 0)
    ∧ closeSession [closed4a] 4 2000 = some ([closed4b], 2000, 0)
    ∧ ([closed4b] : List Session) ≠ [closed4a]
    ∧ closed4b.duration ≠ closed4a.duration := by
  refine ⟨by decide, by decide, by decide, by decide⟩

/-- C4 (amended): a second close on the same session id only leaves the
stored state unchanged when called with the same timestamp (closeSession
is idempotent for a fixed clockOutTs); at the event level a second
clock-out for the key is rejected via re-lookup with the not-clocked-in
reply and leaves the store unchanged, provided at most one session was
open for the key and session ids are unique; a direct second close with
a later timestamp, however, rewrites the session (see the
counterexample). -/
theorem closeIdempotentSafeAmended :
    (∀ (sessions : List Session) (sessionId : Nat) (t : Int)
        (l1 : List Session) (d tb : Int),
      closeSession sessions sessionId t = some (l1, d, tb) →
      closeSession l1 sessionId t = some (l1, d, tb))
    ∧ (∀ (sessions : List Session) (g u d : String) (t t2 : Int) (fid fid2 : Nat),
      countOpen sessions g u d ≤ 1 → (sessions.map Session.id).Nodup →
      handleClockButton (handleClockButton sessions ClockAction.clockout g u d t fid).fst
          ClockAction.clockout g u d t2 fid2
        = ((handleClockButton sessions ClockAction.clockout g u d t fid).fst,
           ClockReply.notClockedIn)) := by
  constructor
  · intro sessions sid t l1 dd tb h
    obtain ⟨s, hF, hb, hd, hl⟩ := closeSession_inv h
    obtain ⟨L1, L2, hsplit, hfree, hps⟩ := find?_decomp hF
    set c : Session := { s with clockOut := some t, duration := some dd,
                                onBreak := false, breakStart := none,
                                totalBreak := tb } with hc
    have hl1 : l1 = L1 ++ c :: L2 := by
      rw [hl, hsplit]
      rw [hb, hd] at hc
      rw [setFirst_append _ _ L1 s L2 hfree hps, hc]
    have hpc : (c.id == sid) = true := hps
    have hF2 : l1.find? (fun x => x.id == sid) = some c := by
      rw [hl1]
      exact find?_append_first _ L1 c L2 hfree hpc
    have hfold : foldedBreak c t = tb := by
      rw [hc]
      simp [foldedBreak]
    have hd2 : max (t - c.clockIn - tb) 0 = dd := hd.symm
    have hcc : ({ c with clockOut := some t, duration := some dd,
                         onBreak := false, breakStart := none,
                         totalBreak := tb } : Session) = c := by
      rw [hc]
    have hsf : setFirst (fun x => x.id == sid) (fun _ => c) l1 = l1 := by
      rw [hl1]
      exact setFirst_append _ _ L1 c L2 hfree hpc
    simp only [closeSession, hF2, hfold, hd2, hcc, hsf]
  · intro sessions g u d t t2 fid fid2 hcount hnodup
    cases hA : getActiveSession sessions g u d with
    | none =>
      simp [handleClockButton, hA]
    | some a =>
      have hpa : isActiveFor g u d a = true := List.find?_some hA
      obtain ⟨L1, L2, hsplit, hfree, _⟩ := find?_decomp hA
      have hidfree : ∀ x ∈ L1, (x.id == a.id) = false := by
        intro x hx
        have hnd := hnodup
        rw [hsplit, List.map_append, List.map_cons, List.nodup_append] at hnd
        obtain ⟨_, _, hdisj⟩ := hnd
        have hxm : x.id ∈ L1.map Session.id := List.mem_map_of_mem _ hx
        have hne : x.id ∉ Session.id a :: L2.map Session.id := hdisj hxm
        simp only [List.mem_cons] at hne
        push_neg at hne
        simp [hne.1]
      have hFid : sessions.find? (fun x => x.id == a.id) = some a := by
        rw [hsplit]
        exact find?_append_first _ L1 a L2 hidfree (by simp)
      set c : Session := { a with clockOut := some t,
                                  duration := some (max (t - a.clockIn - foldedBreak a t) 0),
                                  onBreak := false, breakStart := none,
                                  totalBreak := foldedBreak a t } with hc
      have hC : closeSession sessions a.id t =
          some (L1 ++ c :: L2, max (t - a.clockIn - foldedBreak a t) 0, foldedBreak a t) := by
        simp only [closeSession, hFid]
        rw [hsplit, setFirst_append _ _ L1 a L2 hidfree (by simp), hc]
      have hstep1 : (handleClockButton sessions ClockAction.clockout g u d t fid).fst
          = L1 ++ c :: L2 := by
        simp [handleClockButton, hA, hC]
      have hcL1 : L1.countP (isActiveFor g u d) = 0 :=
        List.countP_eq_zero.mpr (by intro x hx; simp [hfree x hx])
      have hcL2 : L2.countP (isActiveFor g u d) = 0 := by
        have hcnt := hcount
        rw [countOpen, hsplit, List.countP_append, List.countP_cons, hpa] at hcnt
        simp at hcnt
        omega
      have hcfalse : isActiveFor g u d c = false := by
        rw [hc]
        exact isActiveFor_closed_false g u d a t (foldedBreak a t)
          (max (t - a.clockIn - foldedBreak a t) 0)
      have hopen0 : (L1 ++ c :: L2).countP (isActiveFor g u d) = 0 := by
        rw [List.countP_append, List.countP_cons, hcfalse]
        simp [hcL1, hcL2]
      have hA2 : getActiveSession (L1 ++ c :: L2) g u d = none :=
        find?_eq_none_of_countP_eq_zero hopen0
      rw [hstep1]
      simp [handleClockButton, hA2]

/-- Witness for the amended idempotence claim: re-closing an already
closed single-session store at the same timestamp is a no-op, and a
second clock-out event is rejected with no state change. -/
theorem closeIdempotentSafeAmended_witness :
    closeSession [closed4a] 4 1000 = some ([closed4a], 1000, 0)
    ∧ handleClockButton
        (handleClockButton [openSession4] ClockAction.clockout "g" "u" "d" 1000 8).fst
        ClockAction.clockout "g" "u" "d" 2000 9
      = ((handleClockButton [openSession4] ClockAction.clockout "g" "u" "d" 1000 8).fst,
         ClockReply.notClockedIn) :=
  ⟨closeIdempotentSafeAmended.1 [openSession4] 4 1000 [closed4a] 1000 0 (by decide),
   closeIdempotentSafeAmended.2 [openSession4] "g" "u" "d" 1000 2000 8 9
     (by decide) (by decide)⟩

/-- C5 counterexample: a session whose stored totalBreak (5000 ms)
already exceeds the elapsed time at close (1000 ms) is closed with
duration floored to 0, but the stored totalBreak stays 5000, violating
totalBreak <= clockOut - clockIn: flooring the duration does not clamp
totalBreak. -/
theorem totalBreakExceedsElapsedCex :
    closeSession [inflatedBreakSession] 5 1000 = some ([inflatedClosed], 0, 5000)
    ∧ inflatedClosed.clockOut = some 1000
    ∧ ¬(inflatedClosed.totalBreak ≤ inflatedClosed.clockOut.getD 0 - inflatedClosed.clockIn) := by
  refine ⟨by decide, by decide, by decide⟩

/-- C5 (amended): for every session closed by close(sessionId,
clockOutTs), flooring enforces 0 <= duration and
clockOut - clockIn <= duration + totalBreak; the stored session
satisfies totalBreak <= clockOut - clockIn only under the precondition
that the folded break total does not exceed clockOutTs - clockIn, and in
that case the floor is inactive: duration = clockOut - clockIn -
totalBreak exactly. -/
theorem closeSessionDurationFloor :
    ∀ (sessions : List Session) (sessionId : Nat) (t : Int)
      (l1 : List Session) (d tb : Int) (c : Session),
      closeSession sessions sessionId t = some (l1, d, tb) →
      l1.find? (fun x => x.id == sessionId) = some c →
      0 ≤ d ∧ c.clockOut = some t ∧ c.duration = some d ∧ c.totalBreak = tb ∧
      t - c.clockIn ≤ d + tb ∧
      (tb ≤ t - c.clockIn →
        c.totalBreak ≤ c.clockOut.getD 0 - c.clockIn ∧ d = t - c.clockIn - tb) := by
  intro sessions sid t l1 dd tb c h hFc
  obtain ⟨s, hF, hb, hd, hl⟩ := closeSession_inv h
  subst hb
  subst hd
  obtain ⟨L1, L2, hsplit, hfree, hps⟩ := find?_decomp hF
  set c0 : Session := { s with clockOut := some t,
                               duration := some (max (t - s.clockIn - foldedBreak s t) 0),
                               onBreak := false, breakStart := none,
                               totalBreak := foldedBreak s t } with hc0
  have hl1 : l1 = L1 ++ c0 :: L2 := by
    rw [hl, hsplit, setFirst_append _ _ L1 s L2 hfree hps, hc0]
  have hF2 : l1.find? (fun x => x.id == sid) = some c0 := by
    rw [hl1]
    exact find?_append_first _ L1 c0 L2 hfree hps
  rw [hFc] at hF2
  have hcc : c = c0 := Option.some.inj hF2
  subst hcc
  have hclock : c0.clockIn = s.clockIn := rfl
  refine ⟨le_max_right _ _, rfl, rfl, rfl, ?_, ?_⟩
  · have hml := le_max_left (t - s.clockIn - foldedBreak s t) (0 : Int)
    rw [hclock]
    omega
  · intro hle
    rw [hclock] at hle
    constructor
    · show foldedBreak s t ≤ (some t).getD 0 - c0.clockIn
      rw [hclock]
      simpa using hle
    · rw [hclock]
      exact max_eq_left (by omega)

/-- Witness for the amended floor claim at a plain session closed after
1000 ms with no breaks. -/
theorem closeSessionDurationFloor_witness :
    (0 : Int) ≤ 1000
    ∧ closed4a.totalBreak ≤ closed4a.clockOut.getD 0 - closed4a.clockIn :=
  ⟨(closeSessionDurationFloor [openSession4] 4 1000 [closed4a] 1000 0 closed4a
      (by decide) (by decide)).1,
   ((closeSessionDurationFloor [openSession4] 4 1000 [closed4a] 1000 0 closed4a
      (by decide) (by decide)).2.2.2.2.2 (by decide)).1⟩

/-- The user-query skip chain of the source accepts exactly the sessions
described by the spec predicate, and adds their duration. -/
theorem userTotalStep_eq (g u : String) (a b : Int) (acc : Int) (s : Session) :
    (if s.guildId != g then acc
     else if s.userId != u then acc
     else if s.duration == none then acc
     else if s.clockOut == none then acc
     else
       let e := s.clockOut.getD 0
       if e < a || e >= b then acc
       else acc + s.duration.getD 0)
    = acc + (if specUserWindow g u a b s then s.duration.getD 0 else 0) := by
  rcases hd : s.duration with _ | w <;> rcases hc : s.clockOut with _ | e <;>
    simp only [specUserWindow, hd, hc] <;> split_ifs <;> (try simp_all) <;> omega

/-- The department-query skip chain accepts exactly the sessions of the
spec predicate. -/
theorem deptTotalStep_eq (g dp : String) (a b : Int) (acc : Int) (s : Session) :
    (if s.guildId != g then acc
     else if s.departmentId != dp then acc
     else if s.duration == none then acc
     else if s.clockOut == none then acc
     else
       let e := s.clockOut.getD 0
       if e < a || e >= b then acc
       else acc + s.duration.getD 0)
    = acc + (if specDeptWindow g dp a b s then s.duration.getD 0 else 0) := by
  rcases hd : s.duration with _ | w <;> rcases hc : s.clockOut with _ | e <;>
    simp only [specDeptWindow, hd, hc] <;> split_ifs <;> (try simp_all) <;> omega

/-- The grouping step of getDepartmentTotalsInRange accepts exactly the
sessions of the spec predicate and records their duration under their
userId. -/
theorem deptTotalsStep_eq (g dp : String) (a b : Int)
    (acc : List (String × Int)) (s : Session) :
    deptTotalsStep g dp a b acc s
      = if specDeptWindow g dp a b s then insertTotal acc s.userId (s.duration.getD 0)
        else acc := by
  unfold deptTotalsStep
  rcases hd : s.duration with _ | w <;> rcases hc : s.clockOut with _ | e <;>
    simp only [specDeptWindow, hd, hc] <;> split_ifs <;> (try simp_all) <;>
      (exfalso; omega)

/-- getUserTotalInRange over a generalized accumulator. -/
theorem userTotal_go (g u : String) (a b : Int) :
    ∀ (l : List Session) (acc : Int),
      l.foldl (fun total s =>
        if s.guildId != g then total
        else if s.userId != u then total
        else if s.duration == none then total
        else if s.clockOut == none then total
        else
          let e := s.clockOut.getD 0
          if e < a || e >= b then total
          else total + s.duration.getD 0) acc
      = acc + sumDurations (l.filter (specUserWindow g u a b)) := by
  intro l
  induction l with
  | nil => intro acc; simp [sumDurations]
  | cons s rest ih =>
    intro acc
    rw [List.foldl_cons, List.filter_cons]
    rw [userTotalStep_eq g u a b acc s]
    rw [ih]
    by_cases hp : specUserWindow g u a b s = true
    · simp only [hp, if_pos]
      simp [sumDurations]
      omega
    · simp only [Bool.not_eq_true] at hp
      simp [hp]

/-- getDepartmentTotalInRange over a generalized accumulator. -/
theorem deptTotal_go (g dp : String) (a b : Int) :
    ∀ (l : List Session) (acc : Int),
      l.foldl (fun total s =>
        if s.guildId != g then total
        else if s.departmentId != dp then total
        else if s.duration == none then total
        else if s.clockOut == none then total
        else
          let e := s.clockOut.getD 0
          if e < a || e >= b then total
          else total + s.duration.getD 0) acc
      = acc + sumDurations (l.filter (specDeptWindow g dp a b)) := by
  intro l
  induction l with
  | nil => intro acc; simp [sumDurations]
  | cons s rest ih =>
    intro acc
    rw [List.foldl_cons, List.filter_cons]
    rw [deptTotalStep_eq g dp a b acc s]
    rw [ih]
    by_cases hp : specDeptWindow g dp a b s = true
    · simp only [hp, if_pos]
      simp [sumDurations]
      omega
    · simp only [Bool.not_eq_true] at hp
      simp [hp]

/-- getUserTotalInRange sums the durations of exactly the spec-counted
sessions. -/
theorem getUserTotalInRange_eq (sessions : List Session) (g u : String) (a b : Int) :
    getUserTotalInRange sessions g u a b
      = sumDurations (sessions.filter (specUserWindow g u a b)) := by
  unfold getUserTotalInRange
  rw [userTotal_go g u a b sessions 0]
  simp

/-- getDepartmentTotalInRange sums the durations of exactly the
spec-counted sessions. -/
theorem getDepartmentTotalInRange_eq (sessions : List Session) (g dp : String) (a b : Int) :
    getDepartmentTotalInRange sessions g dp a b
      = sumDurations (sessions.filter (specDeptWindow g dp a b)) := by
  unfold getDepartmentTotalInRange
  rw [deptTotal_go g dp a b sessions 0]
  simp

/-- Looking up the key just inserted yields the previous value (or 0)
plus the added duration. -/
theorem lookupKey_insertTotal_self (acc : List (String × Int)) (u : String) (w : Int) :
    lookupKey u (insertTotal acc u w) = some ((lookupKey u acc).getD 0 + w) := by
  induction acc with
  | nil => simp [insertTotal, lookupKey]
  | cons p rest ih =>
    obtain ⟨k, v⟩ := p
    by_cases hk : (k == u) = true
    · simp [insertTotal, lookupKey, hk]
    · simp only [Bool.not_eq_true] at hk
      simp [insertTotal, lookupKey, hk, ih]

/-- Inserting under one key leaves lookups of other keys unchanged. -/
theorem lookupKey_insertTotal_ne (acc : List (String × Int)) (k u : String) (w : Int)
    (h : u ≠ k) :
    lookupKey u (insertTotal acc k w) = lookupKey u acc := by
  induction acc with
  | nil => simp [insertTotal, lookupKey, Ne.symm h]
  | cons p rest ih =>
    obtain ⟨k0, v⟩ := p
    by_cases hk : (k0 == k) = true
    · have hk0 : k0 = k := by simpa using hk
      subst hk0
      simp [insertTotal, lookupKey, Ne.symm h]
    · simp only [Bool.not_eq_true] at hk
      simp [insertTotal, lookupKey, hk, ih]

/-- The keys after insertTotal: unchanged if the key was present,
appended at the end otherwise. -/
theorem keys_insertTotal (acc : List (String × Int)) (u : String) (w : Int) :
    (insertTotal acc u w).map Prod.fst
      = if acc.any (fun p => p.1 == u) then acc.map Prod.fst
        else acc.map Prod.fst ++ [u] := by
  induction acc with
  | nil => simp [insertTotal]
  | cons p rest ih =>
    obtain ⟨k, v⟩ := p
    by_cases hk : (k == u) = true
    · simp [insertTotal, hk]
    · simp only [Bool.not_eq_true] at hk
      simp only [insertTotal, hk, Bool.false_eq_true, if_neg, not_false_iff,
                List.map_cons, List.any_cons]
      by_cases hr : rest.any (fun p => p.1 == u) = true <;> simp [hr, hk, ih]

/-- insertTotal preserves distinctness of keys. -/
theorem nodupKeys_insertTotal (acc : List (String × Int)) (u : String) (w : Int)
    (h : (acc.map Prod.fst).Nodup) :
    ((insertTotal acc u w).map Prod.fst).Nodup := by
  rw [keys_insertTotal]
  by_cases ha : acc.any (fun p => p.1 == u) = true
  · simpa [ha] using h
  · simp only [ha, Bool.false_eq_true, if_neg, not_false_iff]
    have hnotin : u ∉ acc.map Prod.fst := by
      intro hmem
      obtain ⟨p, hp, hfst⟩ := List.mem_map.mp hmem
      exact ha (List.any_eq_true.mpr ⟨p, hp, by simp [hfst]⟩)
    simp [List.nodup_append, h, hnotin]

/-- The grouped total for a user is the running value plus the sum of
that user's counted durations. -/
theorem lookupD_foldTotals (g dp : String) (a b : Int) (u : String) :
    ∀ (l : List Session) (acc : List (String × Int)),
      (lookupKey u (l.foldl (deptTotalsStep g dp a b) acc)).getD 0
        = (lookupKey u acc).getD 0 + sumDurations (l.filter (deptUserFilter g dp a b u)) := by
  intro l
  induction l with
  | nil => intro acc; simp [sumDurations]
  | cons s rest ih =>
    intro acc
    rw [List.foldl_cons, deptTotalsStep_eq, List.filter_cons]
    by_cases hp : specDeptWindow g dp a b s = true
    · by_cases hu : s.userId = u
      · have hf : deptUserFilter g dp a b u s = true := by
          simp [deptUserFilter, hp, hu]
        rw [if_pos hp, ih, hf]
        simp only [if_pos]
        rw [hu, lookupKey_insertTotal_self]
        simp [sumDurations]
        omega
      · have hf : deptUserFilter g dp a b u s = false := by
          simp [deptUserFilter, hu]
        rw [if_pos hp, ih, hf]
        simp only [Bool.false_eq_true, if_neg, not_false_iff]
        rw [lookupKey_insertTotal_ne _ _ _ _ (fun he => hu he.symm)]
    · have hf : deptUserFilter g dp a b u s = false := by
        simp [deptUserFilter, hp]
      rw [if_neg hp, ih, hf]
      simp

/-- A user is present in the grouped totals exactly when it was present
before or some counted session mentions it. -/
theorem isSome_foldTotals (g dp : String) (a b : Int) (u : String) :
    ∀ (l : List Session) (acc : List (String × Int)),
      (lookupKey u (l.foldl (deptTotalsStep g dp a b) acc)).isSome
        = ((lookupKey u acc).isSome || l.any (deptUserFilter g dp a b u)) := by
  intro l
  induction l with
  | nil => intro acc; simp
  | cons s rest ih =>
    intro acc
    rw [List.foldl_cons, deptTotalsStep_eq, List.any_cons]
    by_cases hp : specDeptWindow g dp a b s = true
    · by_cases hu : s.userId = u
      · have hf : deptUserFilter g dp a b u s = true := by
          simp [deptUserFilter, hp, hu]
        rw [if_pos hp, ih, hf]
        rw [hu, lookupKey_insertTotal_self]
        simp
      · have hf : deptUserFilter g dp a b u s = false := by
          simp [deptUserFilter, hu]
        rw [if_pos hp, ih, hf]
        rw [lookupKey_insertTotal_ne _ _ _ _ (fun he => hu he.symm)]
        simp
    · have hf : deptUserFilter g dp a b u s = false := by
        simp [deptUserFilter, hp]
      rw [if_neg hp, ih, hf]
      simp

/-- The grouping fold preserves distinctness of user keys. -/
theorem nodupKeys_foldTotals (g dp : String) (a b : Int) :
    ∀ (l : List Session) (acc : List (String × Int)),
      (acc.map Prod.fst).Nodup →
      ((l.foldl (deptTotalsStep g dp a b) acc).map Prod.fst).Nodup := by
  intro l
  induction l with
  | nil => intro acc h; exact h
  | cons s rest ih =>
    intro acc h
    rw [List.foldl_cons, deptTotalsStep_eq]
    by_cases hp : specDeptWindow g dp a b s = true
    · rw [if_pos hp]
      exact ih _ (nodupKeys_insertTotal acc s.userId (s.duration.getD 0) h)
    · rw [if_neg hp]
      exact ih _ h

/-- With distinct keys, membership of a pair in an association list is
the same as a successful lookup. -/
theorem mem_iff_lookupKey :
    ∀ (acc : List (String × Int)) (u : String) (t : Int),
      (acc.map Prod.fst).Nodup →
      ((u, t) ∈ acc ↔ lookupKey u acc = some t) := by
  intro acc
  induction acc with
  | nil => intro u t _; simp [lookupKey]
  | cons p rest ih =>
    intro u t hnd
    obtain ⟨k, v⟩ := p
    simp only [List.map_cons, List.nodup_cons] at hnd
    obtain ⟨hknot, hnd2⟩ := hnd
    by_cases hk : k = u
    · subst hk
      have hmemno : (k, t) ∉ rest := by
        intro hmem
        exact hknot (List.mem_map.mpr ⟨(k, t), hmem, rfl⟩)
      simp only [lookupKey, beq_self_eq_true, if_pos, List.mem_cons]
      constructor
      · intro hca
        rcases hca with heq | hmem
        · simp [Prod.mk.injEq] at heq
          simp [heq]
        · exact absurd hmem hmemno
      · intro hsome
        left
        simp at hsome
        simp [hsome]
    · have hbk : (k == u) = false := by simp [hk]
      simp only [lookupKey, hbk, Bool.false_eq_true, if_neg, not_false_iff,
                List.mem_cons]
      rw [← ih u t hnd2]
      constructor
      · intro hca
        rcases hca with heq | hmem
        · exact absurd (congrArg Prod.fst heq).symm hk
        · exact hmem
      · intro hmem
        right
        exact hmem

/-- An optional value equals some t exactly when it is present with
default-read t. -/
theorem option_eq_some_char (o : Option Int) (t : Int) :
    o = some t ↔ (o.isSome = true ∧ o.getD 0 = t) := by
  cases o <;> simp

/-- insertDesc is a permutation of pushing the entry on the front. -/
theorem perm_insertDesc (x : String × Int) :
    ∀ l : List (String × Int), (insertDesc x l).Perm (x :: l) := by
  intro l
  induction l with
  | nil => simp [insertDesc]
  | cons y ys ih =>
    by_cases h : y.2 ≤ x.2
    · simp [insertDesc, h]
    · simp only [insertDesc, h, if_neg, not_false_iff]
      exact (ih.cons y).trans (List.Perm.swap x y ys)

/-- sortDesc is a permutation of its input. -/
theorem perm_sortDesc : ∀ l : List (String × Int), (sortDesc l).Perm l := by
  intro l
  induction l with
  | nil => simp [sortDesc]
  | cons x xs ih =>
    exact (perm_insertDesc x (sortDesc xs)).trans (ih.cons x)

/-- insertDesc preserves descending order by total. -/
theorem sorted_insertDesc (x : String × Int) :
    ∀ l : List (String × Int), l.Pairwise (fun p q => q.2 ≤ p.2) →
      (insertDesc x l).Pairwise (fun p q => q.2 ≤ p.2) := by
  intro l
  induction l with
  | nil => intro _; simp [insertDesc]
  | cons y ys ih =>
    intro h
    rw [List.pairwise_cons] at h
    obtain ⟨hy, hys⟩ := h
    by_cases hle : y.2 ≤ x.2
    · simp only [insertDesc, hle, if_pos]
      rw [List.pairwise_cons]
      refine ⟨?_, List.pairwise_cons.mpr ⟨hy, hys⟩⟩
      intro z hz
      rcases List.mem_cons.mp hz with rfl | hz2
      · exact hle
      · exact le_trans (hy z hz2) hle
    · simp only [insertDesc, hle, if_neg, not_false_iff]
      rw [List.pairwise_cons]
      refine ⟨?_, ih hys⟩
      intro z hz
      have hz2 := (perm_insertDesc x ys).mem_iff.mp hz
      rcases List.mem_cons.mp hz2 with rfl | hz3
      · exact le_of_lt (not_le.mp hle)
      · exact hy z hz3

/-- sortDesc sorts descending by total. -/
theorem sorted_sortDesc :
    ∀ l : List (String × Int), (sortDesc l).Pairwise (fun p q => q.2 ≤ p.2) := by
  intro l
  induction l with
  | nil => simp [sortDesc]
  | cons x xs ih => exact sorted_insertDesc x (sortDesc xs) ih

/-- insertTotal adds the inserted duration to the sum of totals. -/
theorem valuesSum_insertTotal :
    ∀ (acc : List (String × Int)) (u : String) (w : Int),
      valuesSum (insertTotal acc u w) = valuesSum acc + w := by
  intro acc
  induction acc with
  | nil => intro u w; simp [insertTotal, valuesSum]
  | cons p rest ih =>
    intro u w
    obtain ⟨k, v⟩ := p
    by_cases hk : (k == u) = true
    · simp [insertTotal, hk, valuesSum]
      omega
    · simp only [Bool.not_eq_true] at hk
      simp [insertTotal, hk, valuesSum] at ih ⊢
      rw [ih]
      omega

/-- The sum of grouped totals is the running sum plus the durations of
the counted sessions. -/
theorem valuesSum_foldTotals (g dp : String) (a b : Int) :
    ∀ (l : List Session) (acc : List (String × Int)),
      valuesSum (l.foldl (deptTotalsStep g dp a b) acc)
        = valuesSum acc + sumDurations (l.filter (specDeptWindow g dp a b)) := by
  intro l
  induction l with
  | nil => intro acc; simp [sumDurations]
  | cons s rest ih =>
    intro acc
    rw [List.foldl_cons, deptTotalsStep_eq, List.filter_cons]
    by_cases hp : specDeptWindow g dp a b s = true
    · rw [if_pos hp, ih, valuesSum_insertTotal]
      simp only [hp, if_pos]
      simp [sumDurations]
      omega
    · rw [if_neg hp, ih]
      simp only [Bool.not_eq_true] at hp
      simp [hp]

/-- Permutations preserve the sum of totals. -/
theorem valuesSum_perm {l1 l2 : List (String × Int)} (h : l1.Perm l2) :
    valuesSum l1 = valuesSum l2 :=
  (h.map Prod.snd).sum_eq

/-- Membership characterization of the leaderboard: an entry (u, t)
appears exactly when user u has a counted session and t is the sum of
that user's counted durations. -/
theorem mem_deptTotals_iff (sessions : List Session) (g dp : String) (a b : Int)
    (u : String) (t : Int) :
    (u, t) ∈ getDepartmentTotalsInRange sessions g dp a b ↔
      (sessions.any (deptUserFilter g dp a b u) = true ∧
       t = sumDurations (sessions.filter (deptUserFilter g dp a b u))) := by
  unfold getDepartmentTotalsInRange
  rw [(perm_sortDesc (sessions.foldl (deptTotalsStep g dp a b) [])).mem_iff]
  rw [mem_iff_lookupKey _ u t (nodupKeys_foldTotals g dp a b sessions [] (by simp))]
  rw [option_eq_some_char]
  rw [isSome_foldTotals g dp a b u sessions [], lookupD_foldTotals g dp a b u sessions []]
  simp only [lookupKey, Option.isSome_none, Bool.false_or, Option.getD_none, zero_add]
  constructor
  · rintro ⟨h1, h2⟩
    exact ⟨h1, h2.symm⟩
  · rintro ⟨h1, h2⟩
    exact ⟨h1, h2.symm⟩

/-- C3: each windowed aggregation query counts exactly the sessions with
non-null duration whose clockOut lies in the half-open window
[startMs, endMs): the user total and department total are the sums of
durations over the spec-counted sessions, each leaderboard entry carries
the sum over exactly that user's spec-counted sessions, and at the
boundary a session with clockOut == startMs is included while one with
clockOut == endMs is excluded. -/
theorem windowedAggregationHalfOpen :
    (∀ (sessions : List Session) (g u : String) (a b : Int),
      getUserTotalInRange sessions g u a b
        = sumDurations (sessions.filter (specUserWindow g u a b)))
    ∧ (∀ (sessions : List Session) (g dp : String) (a b : Int),
      getDepartmentTotalInRange sessions g dp a b
        = sumDurations (sessions.filter (specDeptWindow g dp a b)))
    ∧ (∀ (sessions : List Session) (g dp : String) (a b : Int) (u : String) (t : Int),
      (u, t) ∈ getDepartmentTotalsInRange sessions g dp a b ↔
        (sessions.any (deptUserFilter g dp a b u) = true ∧
         t = sumDurations (sessions.filter (deptUserFilter g dp a b u))))
    ∧ (∀ (g u dp : String) (i : Nat) (ci a b w tb : Int), a < b →
      getUserTotalInRange [boundarySession g u dp i ci a w tb] g u a b = w
      ∧ getUserTotalInRange [boundarySession g u dp i ci b w tb] g u a b = 0) := by
  refine ⟨getUserTotalInRange_eq, getDepartmentTotalInRange_eq, mem_deptTotals_iff, ?_⟩
  intro g u dp i ci a b w tb h
  constructor
  · rw [getUserTotalInRange_eq]
    simp [boundarySession, specUserWindow, sumDurations, h]
  · rw [getUserTotalInRange_eq]
    simp [boundarySession, specUserWindow, sumDurations]

/-- Witness for the half-open boundary: with window [0, 10), a session
closed at 0 contributes its 7 ms duration and one closed at 10
contributes nothing. -/
theorem windowedAggregationHalfOpen_witness :
    getUserTotalInRange [boundarySession "g" "u" "d" 3 0 0 7 0] "g" "u" 0 10 = 7
    ∧ getUserTotalInRange [boundarySession "g" "u" "d" 3 0 10 7 0] "g" "u" 0 10 = 0 :=
  windowedAggregationHalfOpen.2.2.2 "g" "u" "d" 3 0 0 10 7 0 (by decide)

/-- C7: departmentTotalsByUserInRange returns one entry per user with at
least one counted session, whose total is the sum of that user's counted
durations, sorted descending by total; in the scenario with user A
having 5000 ms and user B having 10000 ms the result is
[(B, 10000), (A, 5000)]. -/
theorem departmentLeaderboard :
    (∀ (sessions : List Session) (g dp : String) (a b : Int) (u : String) (t : Int),
      (u, t) ∈ getDepartmentTotalsInRange sessions g dp a b ↔
        (sessions.any (deptUserFilter g dp a b u) = true ∧
         t = sumDurations (sessions.filter (deptUserFilter g dp a b u))))
    ∧ (∀ (sessions : List Session) (g dp : String) (a b : Int),
      ((getDepartmentTotalsInRange sessions g dp a b).map Prod.fst).Nodup)
    ∧ (∀ (sessions : List Session) (g dp : String) (a b : Int),
      (getDepartmentTotalsInRange sessions g dp a b).Pairwise (fun p q => q.2 ≤ p.2))
    ∧ getDepartmentTotalsInRange [sessionA, sessionB] "g" "d" 0 100000
      = [("B", 10000), ("A", 5000)] := by
  refine ⟨mem_deptTotals_iff, ?_, ?_, by decide⟩
  · intro sessions g dp a b
    have hperm := perm_sortDesc (sessions.foldl (deptTotalsStep g dp a b) [])
    have hnd := nodupKeys_foldTotals g dp a b sessions [] (by simp)
    exact ((hperm.map Prod.fst).nodup_iff).mpr hnd
  · intro sessions g dp a b
    exact sorted_sortDesc (sessions.foldl (deptTotalsStep g dp a b) [])

/-- C10: the combined department total equals the sum of the per-user
totals returned by the leaderboard query, for every session collection
and window. -/
theorem deptTotalMatchesLeaderboardSum :
    ∀ (sessions : List Session) (g dp : String) (a b : Int),
      getDepartmentTotalInRange sessions g dp a b
        = valuesSum (getDepartmentTotalsInRange sessions g dp a b) := by
  intro sessions g dp a b
  rw [getDepartmentTotalInRange_eq]
  unfold getDepartmentTotalsInRange
  rw [valuesSum_perm (perm_sortDesc (sessions.foldl (deptTotalsStep g dp a b) []))]
  rw [valuesSum_foldTotals]
  simp [valuesSum]

end ClockinBot
